import Mathlib

/-!
# Verification of the grim wargame engine core

This file gives a shallow embedding, in Lean 4, of the core state-management
and action-resolution code of the `grim` repository, together with theorems
settling the specification claims about it.

Embedded source files:
* `src/game-state.ts` (workspace copy `src/unnamed/part_003`, first section):
  `GameStateManager`, the hash-keyed scenario state tree.
* the immutable `Game` / `ScenarioState` rewrite (`src/unnamed/part_003`,
  second section): persistent state map, rollback, interaction queue.
* `src/openai.ts` (embedded in the workspace copy of `src/grim.ts`):
  `sampleFromWeightedOutcomes` and `ChatService.processActions`
  (forecast fan-out / narrative-merge fan-in).
* `src/telegram-bot/chat-service.ts`: the variant `ChatService.processActions`
  whose forecast-argument parsing is guarded by a `try/catch`.
* `src/grim.ts`: `chunkText` and the `/process` command handler.

Modelling conventions:
* JavaScript numbers appearing in sampling are modelled as rationals (`ℚ`);
  the single `Math.random()` draw is passed explicitly as a parameter.
* `async` control flow with exceptions is modelled with `Except`; a rejected
  promise is an `Except.error`, and `Promise.all` rejects iff a member does.
* Node's `crypto.createHash('sha256')` is modelled by an executable SHA-256
  implementation (`sha256hex` below); `JSON.stringify` of the specific record
  shapes hashed by the source is modelled field by field in source key order.
* External oracle (OpenAI) responses are inputs: each embedded operation that
  awaits an oracle call takes the call's result as an explicit argument.
-/

namespace Grim

/-! ## SHA-256 (model of Node `crypto.createHash('sha256').digest('hex')`) -/

/-- Truncate to a 32-bit word, as all SHA-256 arithmetic is mod 2^32. -/
def w32 (n : Nat) : Nat := n % 4294967296

/-- 32-bit right rotation. -/
def rotr (n x : Nat) : Nat := w32 ((x >>> n) ||| (x <<< (32 - n)))

/-- 32-bit right shift. -/
def shr (n x : Nat) : Nat := x >>> n

def bigSigma0 (x : Nat) : Nat := (rotr 2 x) ^^^ (rotr 13 x) ^^^ (rotr 22 x)

def bigSigma1 (x : Nat) : Nat := (rotr 6 x) ^^^ (rotr 11 x) ^^^ (rotr 25 x)

def smallSigma0 (x : Nat) : Nat := (rotr 7 x) ^^^ (rotr 18 x) ^^^ (shr 3 x)

def smallSigma1 (x : Nat) : Nat := (rotr 17 x) ^^^ (rotr 19 x) ^^^ (shr 10 x)

def chFn (x y z : Nat) : Nat := (x &&& y) ^^^ ((w32 (2^32 - 1 - x)) &&& z)

def majFn (x y z : Nat) : Nat := (x &&& y) ^^^ (x &&& z) ^^^ (y &&& z)

/-- The 64 SHA-256 round constants (FIPS 180-4, written in decimal). -/
def sha256K : List Nat :=
  [1116352408, 1899447441, 3049323471, 3921009573, 961987163, 1508970993,
   2453635748, 2870763221, 3624381080, 310598401, 607225278, 1426881987,
   1925078388, 2162078206, 2614888103, 3248222580, 3835390401, 4022224774,
   264347078, 604807628, 770255983, 1249150122, 1555081692, 1996064986,
   2554220882, 2821834349, 2952996808, 3210313671, 3336571891, 3584528711,
   113926993, 338241895, 666307205, 773529912, 1294757372, 1396182291,
   1695183700, 1986661051, 2177026350, 2456956037, 2730485921, 2820302411,
   3259730800, 3345764771, 3516065817, 3600352804, 4094571909, 275423344,
   430227734, 506948616, 659060556, 883997877, 958139571, 1322822218,
   1537002063, 1747873779, 1955562222, 2024104815, 2227730452, 2361852424,
   2428436474, 2756734187, 3204031479, 3329325298]

/-- Working state of the SHA-256 compression function: eight 32-bit words. -/
structure Hash8 where
  a : Nat
  b : Nat
  c : Nat
  d : Nat
  e : Nat
  f : Nat
  g : Nat
  h : Nat
  deriving Repr, DecidableEq

/-- SHA-256 initial hash value (FIPS 180-4, written in decimal). -/
def sha256H0 : Hash8 :=
  ⟨1779033703, 3144134277, 1013904242, 2773480762,
   1359893119, 2600822924, 528734635, 1541459225⟩

/-- One round of the SHA-256 compression function. -/
def sha256Round (st : Hash8) (kw : Nat × Nat) : Hash8 :=
  let t1 := w32 (st.h + bigSigma1 st.e + chFn st.e st.f st.g + kw.1 + kw.2)
  let t2 := w32 (bigSigma0 st.a + majFn st.a st.b st.c)
  ⟨w32 (t1 + t2), st.a, st.b, st.c, w32 (st.d + t1), st.e, st.f, st.g⟩

/-- Extend the 16 message words of a block to the 64-entry message schedule. -/
def sha256Schedule (ws : List Nat) : List Nat :=
  go ws 48
where
  go (acc : List Nat) : Nat → List Nat
    | 0 => acc
    | m + 1 =>
      let k := acc.length
      let wNew := w32 (smallSigma1 (acc.getD (k - 2) 0) + acc.getD (k - 7) 0 +
        smallSigma0 (acc.getD (k - 15) 0) + acc.getD (k - 16) 0)
      go (acc ++ [wNew]) m

/-- Process one 512-bit block (given as 16 words) into the running hash. -/
def sha256Block (st : Hash8) (ws : List Nat) : Hash8 :=
  let final := ((sha256Schedule ws).zip sha256K).foldl sha256Round st
  ⟨w32 (st.a + final.a), w32 (st.b + final.b), w32 (st.c + final.c),
   w32 (st.d + final.d), w32 (st.e + final.e), w32 (st.f + final.f),
   w32 (st.g + final.g), w32 (st.h + final.h)⟩

/-- Split a list into chunks of `n` elements (`n > 0` for the callers here). -/
def chunksOf (n : Nat) (l : List α) : List (List α) :=
  match n, l with
  | _, [] => []
  | 0, _ => []
  | m + 1, x :: xs =>
    (x :: xs).take (m + 1) :: chunksOf (m + 1) ((x :: xs).drop (m + 1))
termination_by l.length
decreasing_by
  simp only [List.length_drop, List.length_cons]
  omega

/-- Big-endian assembly of four bytes into a 32-bit word. -/
def wordOfBytes (bs : List Nat) : Nat :=
  bs.foldl (fun acc b => acc * 256 + b) 0

/-- Big-endian decomposition of a 32-bit word into four bytes. -/
def bytesOfWord (v : Nat) : List Nat :=
  [v / 16777216 % 256, v / 65536 % 256, v / 256 % 256, v % 256]

/-- SHA-256 padding: append `0x80`, zeros, and the 64-bit big-endian bit
length, reaching a multiple of 64 bytes. -/
def sha256Pad (msg : List Nat) : List Nat :=
  let len := msg.length
  let zeros := (64 - ((len + 9) % 64)) % 64
  let bitLen := len * 8
  msg ++ [0x80] ++ List.replicate zeros 0 ++
    [bitLen / 2^56 % 256, bitLen / 2^48 % 256, bitLen / 2^40 % 256,
     bitLen / 2^32 % 256, bitLen / 2^24 % 256, bitLen / 2^16 % 256,
     bitLen / 2^8 % 256, bitLen % 256]

/-- The final eight words of a digest, in output order. -/
def Hash8.toWords (st : Hash8) : List Nat :=
  [st.a, st.b, st.c, st.d, st.e, st.f, st.g, st.h]

/-- SHA-256 digest of a byte sequence, as 32 bytes. -/
def sha256Bytes (msg : List Nat) : List Nat :=
  let blocks := (chunksOf 64 (sha256Pad msg)).map (fun blk => (chunksOf 4 blk).map wordOfBytes)
  (blocks.foldl sha256Block sha256H0).toWords.flatMap bytesOfWord

def hexDigit (n : Nat) : Char :=
  if n < 10 then Char.ofNat (48 + n) else Char.ofNat (87 + n)

/-- Lowercase hex rendering of one byte, two characters. -/
def byteToHex (b : Nat) : List Char :=
  [hexDigit (b / 16), hexDigit (b % 16)]

/-- UTF-8 encoding of one character (Node hashes strings as UTF-8). -/
def utf8EncodeChar (c : Char) : List Nat :=
  let n := c.toNat
  if n < 0x80 then [n]
  else if n < 0x800 then [0xc0 + n / 64, 0x80 + n % 64]
  else if n < 0x10000 then [0xe0 + n / 4096, 0x80 + n / 64 % 64, 0x80 + n % 64]
  else [0xf0 + n / 262144, 0x80 + n / 4096 % 64, 0x80 + n / 64 % 64, 0x80 + n % 64]

def utf8Bytes (s : String) : List Nat :=
  s.data.flatMap utf8EncodeChar

/-- The full (untruncated) hex digest, 64 characters:
model of `crypto.createHash('sha256').update(s).digest('hex')`. -/
def sha256hex (s : String) : String :=
  String.mk ((sha256Bytes (utf8Bytes s)).flatMap byteToHex)

/-- Model of the two-argument JavaScript `string.slice(0, n)`. -/
def jsSliceTo (s : String) (n : Nat) : String :=
  String.mk (s.data.take n)

/-! ## JSON serialization (model of `JSON.stringify` on the hashed shapes)

`JSON.stringify` emits object keys in insertion order and omits keys whose
value is `undefined`; strings are escaped as below. Only the record shapes
actually hashed by the source are modelled. -/

def jsonEscapeChar (c : Char) : List Char :=
  if c = '"' then ['\\', '"']
  else if c = '\\' then ['\\', '\\']
  else if c = '\n' then ['\\', 'n']
  else if c = '\r' then ['\\', 'r']
  else if c = '\t' then ['\\', 't']
  else if c = '\x08' then ['\\', 'b']
  else if c = '\x0c' then ['\\', 'f']
  else if c.toNat < 32 then '\\' :: 'u' :: '0' :: '0' :: byteToHex c.toNat
  else [c]

def jsonQuote (s : String) : String :=
  "\"" ++ String.mk (s.data.flatMap jsonEscapeChar) ++ "\""

def jsonArr (items : List String) : String :=
  "[" ++ String.intercalate "," items ++ "]"

/-! ## Data model (`src/types.ts`) -/

/-- `UserInteractionType` enum; its values serialize as their string names. -/
inductive UserInteractionType where
  | INFO
  | FEED
  | ACTION
  deriving Repr, DecidableEq

def UserInteractionType.toStr : UserInteractionType → String
  | .INFO => "INFO"
  | .FEED => "FEED"
  | .ACTION => "ACTION"

structure Player where
  id : Int
  name : String
  role : String
  deriving Repr, DecidableEq

structure UserInteraction where
  type : UserInteractionType
  player : Player
  content : String
  deriving Repr, DecidableEq

/-- One entry of `ScenarioTimelineSchema`: `{ datetime, event }`. -/
structure TimelineEvent where
  datetime : String
  event : String
  deriving Repr, DecidableEq

/-- `PrivateInfoSchema`: the oracle-only ledger (timeline + scratchpad). -/
structure PrivateInfo where
  scenarioTimeline : List TimelineEvent
  scratchpad : String
  deriving Repr, DecidableEq

/-- A canon message (`ChatCompletionMessageParam` restricted to the
`role`/`content` fields, the only ones the embedded code constructs/reads). -/
structure ChatMsg where
  role : String
  content : String
  deriving Repr, DecidableEq

/-- `ScenarioUpdateSchema`: the structured oracle response of the
initialization and narrative-merge steps. -/
structure ScenarioUpdate where
  privateInfo : PrivateInfo
  currentDateTime : String
  playerBriefing : String
  deriving Repr, DecidableEq

def ChatMsg.toJson (m : ChatMsg) : String :=
  "\x7b\"role\":" ++ jsonQuote m.role ++ ",\"content\":" ++ jsonQuote m.content ++ "\x7d"

def TimelineEvent.toJson (e : TimelineEvent) : String :=
  "\x7b\"datetime\":" ++ jsonQuote e.datetime ++ ",\"event\":" ++ jsonQuote e.event ++ "\x7d"

def PrivateInfo.toJson (p : PrivateInfo) : String :=
  "\x7b\"scenarioTimeline\":" ++ jsonArr (p.scenarioTimeline.map TimelineEvent.toJson) ++
    ",\"scratchpad\":" ++ jsonQuote p.scratchpad ++ "\x7d"

/-- Shared rendering of one interaction (`formatUserInteractions` map body in
`game-state.ts` and in the immutable `Game`): `ACTION` lines carry the player
name, other kinds do not. -/
def formatUserInteraction (i : UserInteraction) : String :=
  match i.type with
  | .ACTION => "ACTION " ++ i.player.name ++ ": " ++ i.content
  | _ => i.type.toStr ++ ": " ++ i.content

def formatUserInteractions (l : List UserInteraction) : String :=
  String.intercalate "\n" (l.map formatUserInteraction)

end Grim

namespace Grim.GameState

/-! ## `game-state.ts`: `GameStateManager` and the scenario state tree -/

/-- `ScenarioState` of `game-state.ts`: `{ canon, privateInfo }`. -/
structure ScenarioState where
  canon : List ChatMsg
  privateInfo : PrivateInfo
  deriving Repr, DecidableEq

/-- `JSON.stringify(state)` for a `ScenarioState` (keys in declaration
order: `canon`, then `privateInfo`). -/
def stateString (st : ScenarioState) : String :=
  "\x7b\"canon\":" ++ jsonArr (st.canon.map ChatMsg.toJson) ++
    ",\"privateInfo\":" ++ st.privateInfo.toJson ++ "\x7d"

/-- `GameStateManager.generateStateHash`: the SHA-256 hex digest of the
serialized state, truncated by `.slice(0, 8)`. -/
def generateStateHash (state : ScenarioState) : String :=
  jsSliceTo (sha256hex (stateString state)) 8

/-- `ScenarioStateRoot` / `ScenarioStateChild`: a node holds its state, its
stored hash, a children array, and (for children) a parent reference.
A root is a node whose `parent` is `none`. -/
inductive ScenarioStateNode where
  | mk (state : ScenarioState) (stateHash : String)
       (children : List ScenarioStateNode) (parent : Option ScenarioStateNode)
  deriving Repr

def ScenarioStateNode.state : ScenarioStateNode → ScenarioState
  | .mk st _ _ _ => st

def ScenarioStateNode.stateHash : ScenarioStateNode → String
  | .mk _ h _ _ => h

def ScenarioStateNode.children : ScenarioStateNode → List ScenarioStateNode
  | .mk _ _ cs _ => cs

def ScenarioStateNode.parent : ScenarioStateNode → Option ScenarioStateNode
  | .mk _ _ _ p => p

/-- `GameStateManager.createScenarioStateRoot`. -/
def createScenarioStateRoot (state : ScenarioState) : ScenarioStateNode :=
  .mk state (generateStateHash state) [] none

/-- `GameStateManager.createScenarioStateChildNode`: spreads a fresh root
record and adds the `parent` reference. Note that it does **not** append the
new node to `parent.children` (and no other code in the repository does). -/
def createScenarioStateChildNode (state : ScenarioState) (parent : ScenarioStateNode) :
    ScenarioStateNode :=
  .mk state (generateStateHash state) [] (some parent)

mutual

/-- `GameStateManager.findNodeByHash`: exact equality on the stored
`stateHash`, else a left-to-right scan of the children. -/
def findNodeByHash : ScenarioStateNode → String → Option ScenarioStateNode
  | .mk st h cs p, hash =>
    if h = hash then some (.mk st h cs p) else findReduce cs hash

/-- The `children.reduce((found, child) => found || findNodeByHash(child, hash))`
fold: first match in child order wins (`||` short-circuits). -/
def findReduce : List ScenarioStateNode → String → Option ScenarioStateNode
  | [], _ => none
  | c :: rest, hash =>
    match findNodeByHash c hash with
    | some found => some found
    | none => findReduce rest hash

end

/-- `GameStateManager.processActions`, with the awaited
`openAIService.processActions(...)` result passed in explicitly (the service
returns the extended message array; the code reads its last element).
The new snapshot reuses the parent's `privateInfo`
(source comment: `// TODO: update private info`). -/
def processActions (currentState : ScenarioStateNode) (pendingActions : List UserInteraction)
    (processActionsResult : List ChatMsg) : ScenarioStateNode × String :=
  let assistantResponse := processActionsResult.getLastD ⟨"assistant", ""⟩
  let formattedUserInteractionMessage := formatUserInteractions pendingActions
  let newState := createScenarioStateChildNode
    ⟨currentState.state.canon ++ [⟨"user", formattedUserInteractionMessage⟩, assistantResponse],
     currentState.state.privateInfo⟩
    currentState
  (newState, assistantResponse.content)

end Grim.GameState

namespace Grim

/-! ## Outcome sampler (`sampleFromWeightedOutcomes`, identical in
`src/openai.ts`, `src/ai-client.ts` and `src/telegram-bot/chat-service.ts`)

JavaScript numbers are modelled as rationals and the single `Math.random()`
draw is the explicit `rand` parameter. A thrown `TypeError` is an
`Except.error`. -/

structure Outcome where
  outcome : String
  weight : ℚ
  deriving Repr, DecidableEq

/-- The `for` loop: walk the outcomes paired with their normalized weights,
accumulating `cumSum`; return the first outcome with `rand <= cumSum`. -/
def sampleLoop (rand : ℚ) : List (Outcome × ℚ) → ℚ → Option String
  | [], _ => none
  | (o, w) :: rest, cumSum =>
    let c := cumSum + w
    if rand ≤ c then some o.outcome else sampleLoop rand rest c

/-- `sampleFromWeightedOutcomes`.  On the empty list the source reaches
`outcomes[outcomes.length - 1].outcome`, i.e. `undefined.outcome`, which
throws a `TypeError`; that is the `error` branch here. -/
def sampleFromWeightedOutcomes (rand : ℚ) (outcomes : List Outcome) : Except String String :=
  let totalWeight := outcomes.foldl (fun sum o => sum + o.weight) 0
  let normalizedWeights := outcomes.map (fun o => o.weight / totalWeight)
  match sampleLoop rand (outcomes.zip normalizedWeights) 0 with
  | some s => .ok s
  | none =>
    match outcomes.getLast? with
    | some o => .ok o.outcome
    | none => .error "TypeError: cannot read properties of undefined"

/-! ## `chunkText` (`src/grim.ts`)

Texts are modelled as character lists. JavaScript
`String.prototype.lastIndexOf` returns `-1` when the character is absent;
that case is modelled as `none`. -/

/-- `text.lastIndexOf(c)`: index of the last occurrence, if any. -/
def jsLastIndexOf (l : List Char) (c : Char) : Option Nat :=
  match l.reverse.findIdx? (fun x => x = c) with
  | none => none
  | some j => some (l.length - 1 - j)

/-- `findLastNewlineBeforeLimit` (inner helper of `chunkText`). -/
def findLastNewlineBeforeLimit (text : List Char) (limit : Nat) : Nat :=
  let endIndex := min limit text.length
  match jsLastIndexOf (text.take endIndex) '\n' with
  | none => endIndex
  | some searchFrom => searchFrom

/-- `chunkText`: split at the last newline before the limit (or hard at the
limit when there is none) and recurse on the remainder after the split
index. -/
def chunkText (text : List Char) (maxLength : Nat) : List (List Char) :=
  if text.length ≤ maxLength then [text]
  else
    let splitIndex := findLastNewlineBeforeLimit text maxLength
    text.take splitIndex :: chunkText (text.drop (splitIndex + 1)) maxLength
termination_by text.length
decreasing_by
  simp only [List.length_drop]
  omega

/-! ## `ChatService.processActions`: forecast fan-out and merge input

The fan-out issues one forecast call per non-FEED interaction. Each
completion is inspected for a tool call whose JSON `arguments` carry an
`outcomes` array; the distinctions the code makes are captured by
`ForecastResult`. The per-call random draw used by the sampler is the
corresponding entry of `rands`. -/

/-- What the code observes in one forecast completion. -/
inductive ForecastResult where
  /-- `tool_calls?.[0]` / the `function_call` output item is absent. -/
  | noToolCall
  /-- A tool call is present but `JSON.parse(arguments)` throws. -/
  | malformedArgs
  /-- The arguments parse but carry no `outcomes` field. -/
  | missingOutcomes
  /-- The arguments parse to an `outcomes` array. -/
  | outcomes (outs : List Outcome)
  deriving Repr, DecidableEq

/-- `${action.type} ${action.player.name}: ${action.content}` (used both as
the forecast target and as the head of a resolution line). -/
def actionLine (action : UserInteraction) : String :=
  action.type.toStr ++ " " ++ action.player.name ++ ": " ++ action.content

/-- A resolved action's line in the merge input. -/
def resolutionLine (action : UserInteraction) (outcome : String) : String :=
  actionLine action ++ "\nOutcome: " ++ outcome

/-- `${feed.type}: ${feed.content}` (feed lines carry no player name). -/
def feedLine (feed : UserInteraction) : String :=
  feed.type.toStr ++ ": " ++ feed.content

/-- One fan-out task in the `src/openai.ts` variant (embedded in the
workspace copy of `src/grim.ts`): a missing tool call logs and returns
`null`; a `JSON.parse` failure or a missing/empty `outcomes` array throws
inside the task, rejecting its promise. -/
def resolveForecastGrim (action : UserInteraction) (res : ForecastResult) (rand : ℚ) :
    Except String (Option String) :=
  match res with
  | .noToolCall => .ok none
  | .malformedArgs => .error "SyntaxError: JSON.parse"
  | .missingOutcomes => .error "TypeError: outcomes is undefined"
  | .outcomes outs =>
    match sampleFromWeightedOutcomes rand outs with
    | .error e => .error e
    | .ok outcome => .ok (some (resolutionLine action outcome))

/-- One fan-out task in the `src/telegram-bot/chat-service.ts` variant: the
argument parse is wrapped in `try/catch` and a missing `outcomes` value is
checked, so all three degenerate cases return `null`; only an explicitly
empty `outcomes` array still reaches the sampler and throws. -/
def resolveForecastTelegram (action : UserInteraction) (res : ForecastResult) (rand : ℚ) :
    Except String (Option String) :=
  match res with
  | .noToolCall => .ok none
  | .malformedArgs => .ok none
  | .missingOutcomes => .ok none
  | .outcomes outs =>
    match sampleFromWeightedOutcomes rand outs with
    | .error e => .error e
    | .ok outcome => .ok (some (resolutionLine action outcome))

/-- Modelled from the spec: `partition` is imported from `src/utils/array.ts`,
which is not present in the workspace copy of the repository. The spec (§4.3
step 1) says partitioning splits by the predicate and "preserves relative
order within each partition". -/
def partitionInteractions (p : UserInteraction → Bool) (l : List UserInteraction) :
    List UserInteraction × List UserInteraction :=
  (l.filter p, l.filter (fun a => !(p a)))

/-- `Promise.all` over the fan-out tasks: the join rejects iff some task
rejected (with the first rejection in task order); otherwise it yields all
task results in task order, regardless of completion order. -/
def promiseAll (l : List (Except ε α)) : Except ε (List α) :=
  match l with
  | [] => .ok []
  | x :: xs =>
    match x with
    | .error e => .error e
    | .ok a =>
      match promiseAll xs with
      | .error e => .error e
      | .ok rest => .ok (a :: rest)

/-- The fan-out / fan-in core of `ChatService.processActions`, up to the
construction of `allOutcomesStr` (the narrative-merge input text), for a
given per-task resolver. `oracle i` and `rands i` are the forecast completion
and random draw of the `i`-th non-FEED interaction. -/
def buildMergeInput (resolver : UserInteraction → ForecastResult → ℚ → Except String (Option String))
    (actions : List UserInteraction) (oracle : Nat → ForecastResult) (rands : Nat → ℚ) :
    Except String String :=
  let (feeds, nonFeeds) := partitionInteractions (fun a => a.type = .FEED) actions
  let actionPromises := nonFeeds.mapIdx (fun i action => resolver action (oracle i) (rands i))
  match promiseAll actionPromises with
  | .error e => .error e
  | .ok opts =>
    let outcomes := opts.filterMap id
    let feedMessages := feeds.map feedLine
    .ok (String.intercalate "\n\n" (feedMessages ++ outcomes))

def buildMergeInputGrim := buildMergeInput resolveForecastGrim

def buildMergeInputTelegram := buildMergeInput resolveForecastTelegram

/-- `ChatService.processActions` of `src/openai.ts` end to end: on fan-out
success the single narrative-merge request is issued with `allOutcomesStr`;
`mergeOracle` models that awaited call (erroring when the structured parse
fails, which is fatal). -/
def chatProcessActionsGrim (actions : List UserInteraction) (oracle : Nat → ForecastResult)
    (rands : Nat → ℚ) (mergeOracle : String → Except String ScenarioUpdate) :
    Except String ScenarioUpdate :=
  match buildMergeInputGrim actions oracle rands with
  | .error e => .error e
  | .ok allOutcomesStr => mergeOracle allOutcomesStr

/-- `ChatService.processActions` of `src/telegram-bot/chat-service.ts` end to
end; there the merge response is narrative text and the method returns the
extended message array. -/
def chatProcessActionsTelegram (actions : List UserInteraction) (oracle : Nat → ForecastResult)
    (rands : Nat → ℚ) (canon : List ChatMsg) (mergeOracle : String → Except String String) :
    Except String (List ChatMsg) :=
  match buildMergeInputTelegram actions oracle rands with
  | .error e => .error e
  | .ok allOutcomesStr =>
    match mergeOracle allOutcomesStr with
    | .error e => .error e
    | .ok narratorResponse =>
      .ok (canon ++ [⟨"user", allOutcomesStr⟩, ⟨"assistant", narratorResponse⟩])

end Grim

namespace Grim.Persistent

/-! ## The immutable `ScenarioState` / `Game` rewrite
(`src/unnamed/part_003`, second section)

`immutable.List` / `immutable.Map` are modelled as Lean lists and as
functions `String → Option ScenarioState`; all methods already return fresh
values in the source, matching the pure embedding. -/

/-- `JSON.stringify({ canon, privateInfo, parentHash })` as computed in the
`ScenarioState` constructor. `JSON.stringify` drops the `parentHash` key when
the value is `undefined` (a root). -/
def stateString (canon : List ChatMsg) (privateInfo : PrivateInfo)
    (parentHash : Option String) : String :=
  "\x7b\"canon\":" ++ jsonArr (canon.map ChatMsg.toJson) ++
    ",\"privateInfo\":" ++ privateInfo.toJson ++
    (match parentHash with
     | none => ""
     | some ph => ",\"parentHash\":" ++ jsonQuote ph) ++ "\x7d"

/-- The immutable `ScenarioState`: canon, private ledger, stored hash and
optional parent hash. -/
structure ScenarioState where
  canon : List ChatMsg
  privateInfo : PrivateInfo
  hash : String
  parentHash : Option String
  deriving Repr, DecidableEq

/-- The protected `ScenarioState` constructor: the stored hash is the SHA-256
hex digest of the serialized fields, truncated by `.slice(0, 8)`. -/
def ScenarioState.make (canon : List ChatMsg) (privateInfo : PrivateInfo)
    (parentHash : Option String) : ScenarioState :=
  { canon, privateInfo, parentHash,
    hash := jsSliceTo (sha256hex (stateString canon privateInfo parentHash)) 8 }

/-- `ScenarioState.root`. -/
def ScenarioState.root (initialMessages : List ChatMsg) (privateInfo : PrivateInfo) :
    ScenarioState :=
  ScenarioState.make initialMessages privateInfo none

/-- `ScenarioState.child`: appends the new messages to the canon and records
this state's hash as the parent hash. -/
def ScenarioState.child (s : ScenarioState) (newMessages : List ChatMsg)
    (privateInfo : PrivateInfo) : ScenarioState :=
  ScenarioState.make (s.canon ++ newMessages) privateInfo (some s.hash)

/-- The immutable `Game` (the `openAIService` handle, an external
capability, is not part of the state). -/
structure Game where
  scenarioStates : String → Option ScenarioState
  currentState : ScenarioState
  userInteractions : List UserInteraction

/-- The protected `Game` constructor:
`this.scenarioStates = scenarioStates.set(currentState.hash, currentState)`. -/
def Game.make (scenarioStates : String → Option ScenarioState)
    (currentState : ScenarioState) (userInteractions : List UserInteraction) : Game :=
  { scenarioStates := fun k => if k = currentState.hash then some currentState else scenarioStates k,
    currentState, userInteractions }

/-- `Game.update`: each field falls back to the receiver's value when the
update record omits it. -/
def Game.update (g : Game) (scenarioStates : Option (String → Option ScenarioState))
    (currentState : Option ScenarioState) (userInteractions : Option (List UserInteraction)) :
    Game :=
  Game.make (scenarioStates.getD g.scenarioStates) (currentState.getD g.currentState)
    (userInteractions.getD g.userInteractions)

/-- `Game.queueUserInteraction`: `List.push` appends at the end. -/
def Game.queueUserInteraction (g : Game) (interaction : UserInteraction) : Game :=
  g.update none none (some (g.userInteractions ++ [interaction]))

/-- `Game.removeUserInteraction`: `immutable.List.delete(index)` removes the
element at `index` and returns the list unchanged when `index` is past the
end (negative indices do not arise: the model's index is a `Nat`). -/
def Game.removeUserInteraction (g : Game) (index : Nat) : Game :=
  g.update none none (some (g.userInteractions.eraseIdx index))

def Game.stateHash (g : Game) : String :=
  g.currentState.hash

/-- `Game.rollback`: default the target to the parent hash; `if (!hash)` is
true both for `undefined` and for the empty string. An unknown hash yields
`undefined` (`none`); otherwise only `currentState` is repointed. -/
def Game.rollback (g : Game) (hash? : Option String) : Option Game :=
  match hash?.orElse (fun _ => g.currentState.parentHash) with
  | none => none
  | some hash =>
    if hash = "" then none
    else
      match g.scenarioStates hash with
      | none => none
      | some state => some (g.update none (some state) none)

/-- `Game.processActions`, with the awaited `openAIService.processActions`
result passed in explicitly (the service returns the extended message array;
the code reads its last element). The child state reuses the parent's
`privateInfo` (source comment: `// TODO: update private info`), and the
returned game clears the interaction queue. -/
def Game.processActions (g : Game) (processActionsResult : List ChatMsg) : Game × String :=
  let assistantResponse := processActionsResult.getLastD ⟨"assistant", ""⟩
  let formattedUserInteractionMessage := formatUserInteractions g.userInteractions
  let newState := g.currentState.child
    [⟨"user", formattedUserInteractionMessage⟩, assistantResponse]
    g.currentState.privateInfo
  (g.update none (some newState) (some []), assistantResponse.content)

/-- The well-formedness every constructed `Game` enjoys: the state map
resolves the current state's hash to the current state (established by the
constructor's `set`). -/
def Game.WF (g : Game) : Prop :=
  g.scenarioStates g.currentState.hash = some g.currentState

end Grim.Persistent

namespace Grim.GrimBot

/-! ## `src/grim.ts`: session state and the `/process` and `/rollback`
command handlers

The handlers mutate `ctx.session.grimState`; each is modelled as a function
from the session state (and the awaited results of external calls) to the new
session state. `reply`/`sendChunkedReply` are transport I/O and do not touch
the session state. -/

/-- `ActiveGrimState` (the `players` list plays no role in the embedded
handlers and is omitted). -/
structure ActiveGrimState where
  pendingUserInteractions : List UserInteraction
  rootState : GameState.ScenarioStateNode
  currentState : GameState.ScenarioStateNode

/-- The `/process` handler: an empty queue returns early; on success the new
state is installed as current and then the queue is cleared; the `catch` arm
leaves the session untouched. `res` is the awaited
`gameStateManager.processActions` outcome (`error` for a thrown failure). -/
def processCommand (gs : ActiveGrimState)
    (res : Except String (GameState.ScenarioStateNode × String)) : ActiveGrimState :=
  if gs.pendingUserInteractions.length = 0 then gs
  else
    match res with
    | .error _ => gs
    | .ok (newState, _) =>
      { gs with currentState := newState, pendingUserInteractions := [] }

/-- The `/rollback` handler: an empty argument or an unresolved hash leaves
the session unchanged; otherwise current is repointed to the found node. -/
def rollbackCommand (gs : ActiveGrimState) (targetHash : String) : ActiveGrimState :=
  if targetHash = "" then gs
  else
    match GameState.findNodeByHash gs.rootState targetHash with
    | none => gs
    | some node => { gs with currentState := node }

end Grim.GrimBot

namespace Grim.Fixtures

/-! ## Concrete inputs used by witnesses and counterexamples -/

def alice : Player := ⟨1, "Alice", "CEO"⟩

def bob : Player := ⟨2, "Bob", "CTO"⟩

def carol : Player := ⟨3, "Carol", "Analyst"⟩

def privA : PrivateInfo := ⟨[⟨"2027-01-01T00:00Z", "event one"⟩], "notes"⟩

def privB : PrivateInfo := ⟨[], "other notes"⟩

def iAct1 : UserInteraction := ⟨.ACTION, alice, "storm the base, 2 hours, stealth approach"⟩

def iAct2 : UserInteraction := ⟨.ACTION, bob, "call the press"⟩

def iInfo1 : UserInteraction := ⟨.INFO, carol, "what is known?"⟩

def iFeed1 : UserInteraction := ⟨.FEED, alice, "the base is empty"⟩

def stateA : GameState.ScenarioState := ⟨[⟨"assistant", "briefing"⟩], privA⟩

def stateB : GameState.ScenarioState :=
  ⟨[⟨"assistant", "briefing"⟩, ⟨"user", "ACTION Alice: storm the base, 2 hours, stealth approach"⟩,
    ⟨"assistant", "round one result"⟩], privA⟩

def rootA : GameState.ScenarioStateNode := GameState.createScenarioStateRoot stateA

def childB : GameState.ScenarioStateNode := GameState.createScenarioStateChildNode stateB rootA

def scenRoot : Persistent.ScenarioState := Persistent.ScenarioState.root [⟨"assistant", "briefing"⟩] privA

def gameA : Persistent.Game := Persistent.Game.make (fun _ => none) scenRoot [iAct1, iInfo1]

def grimSession : GrimBot.ActiveGrimState := ⟨[iAct1], rootA, rootA⟩

/-- Forecast responses for the C4 counterexample: the first fan-out task gets
a tool call with unparseable JSON arguments, every other task a good
single-outcome set. -/
def oracleOneMalformed : Nat → ForecastResult :=
  fun i => if i = 0 then .malformedArgs else .outcomes [⟨"fine", 1⟩]

/-- Forecast responses for C4/C6 happy paths: task `i` gets a single
distinct outcome with weight 1. -/
def oracleGood : Nat → ForecastResult :=
  fun i => .outcomes
    [⟨if i = 0 then "laid low" else if i = 1 then "files found" else "press arrives", 1⟩]

/-- Forecast responses where only task 0 is missing its tool call. -/
def oracleOneMissing : Nat → ForecastResult :=
  fun i => if i = 0 then .noToolCall else .outcomes [⟨"fine", 1⟩]

def randsZero : Nat → ℚ := fun _ => 0

def mergeOk : String → Except String ScenarioUpdate :=
  fun _ => .ok ⟨privB, "2027-02-01T00:00Z", "narrative"⟩

def batch6 : List UserInteraction := [iFeed1, iAct1, iInfo1, iAct2]

end Grim.Fixtures

namespace Grim

/-! ## Supporting lemmas -/

theorem length_flatMap_const {α β : Type _} (f : α → List β) (k : Nat)
    (hf : ∀ a, (f a).length = k) : ∀ l : List α, (l.flatMap f).length = k * l.length
  | [] => by simp
  | a :: l => by
    rw [List.flatMap_cons, List.length_append, hf a, length_flatMap_const f k hf l,
      List.length_cons]
    ring

theorem bytesOfWord_length (v : Nat) : (bytesOfWord v).length = 4 := rfl

theorem byteToHex_length (b : Nat) : (byteToHex b).length = 2 := rfl

theorem sha256Bytes_length (msg : List Nat) : (sha256Bytes msg).length = 32 := by
  unfold sha256Bytes
  rw [length_flatMap_const bytesOfWord 4 bytesOfWord_length]
  rfl

theorem sha256hex_length (s : String) : (sha256hex s).length = 64 := by
  unfold sha256hex
  rw [String.length_mk, length_flatMap_const byteToHex 2 byteToHex_length,
    sha256Bytes_length]

theorem jsSliceTo_length (s : String) (n : Nat) : (jsSliceTo s n).length = min n s.length := by
  rw [jsSliceTo, String.length_mk, List.length_take]
  rfl

end Grim

namespace Grim.GameState

theorem findNodeByHash_self (n : ScenarioStateNode) :
    findNodeByHash n n.stateHash = some n := by
  cases n with
  | mk st hh cs p =>
    show findNodeByHash (.mk st hh cs p) hh = some (.mk st hh cs p)
    rw [findNodeByHash, if_pos rfl]

mutual

theorem findNodeByHash_stateHash (n : ScenarioStateNode) (hash : String)
    (m : ScenarioStateNode) (hfind : findNodeByHash n hash = some m) :
    m.stateHash = hash := by
  cases n with
  | mk st hh cs p =>
    rw [findNodeByHash] at hfind
    by_cases hq : hh = hash
    · rw [if_pos hq] at hfind
      cases hfind
      simpa [ScenarioStateNode.stateHash] using hq
    · rw [if_neg hq] at hfind
      exact findReduce_stateHash cs hash m hfind

theorem findReduce_stateHash (cs : List ScenarioStateNode) (hash : String)
    (m : ScenarioStateNode) (hfind : findReduce cs hash = some m) :
    m.stateHash = hash := by
  match cs with
  | [] => simp [findReduce] at hfind
  | c :: rest =>
    rw [findReduce] at hfind
    cases hc : findNodeByHash c hash with
    | some found =>
      rw [hc] at hfind
      cases hfind
      exact findNodeByHash_stateHash c hash _ hc
    | none =>
      rw [hc] at hfind
      exact findReduce_stateHash rest hash m hfind

end

end Grim.GameState

namespace Grim

/-- Claim C1, counterexample. The claim asserts that the ledger retains the
full (untruncated) digest of every snapshot and that `findNodeByHash` never
resolves a node given only the truncated 8-hex prefix. On the concrete root
for `Fixtures.stateA`: the stored `stateHash` is not the full digest (it is
`slice(0, 8)` of it), and `findNodeByHash` queried with exactly that
truncated 8-character prefix of the full digest resolves the node. -/
theorem claim1_counterexample :
    Fixtures.rootA.stateHash ≠ sha256hex (GameState.stateString Fixtures.stateA) ∧
    Fixtures.rootA.stateHash = jsSliceTo (sha256hex (GameState.stateString Fixtures.stateA)) 8 ∧
    GameState.findNodeByHash Fixtures.rootA
      (jsSliceTo (sha256hex (GameState.stateString Fixtures.stateA)) 8) = some Fixtures.rootA := by
  refine ⟨?_, rfl, ?_⟩
  · intro hcontra
    have hlen := congrArg String.length hcontra
    have h8 : Fixtures.rootA.stateHash.length = 8 := by
      show (jsSliceTo (sha256hex (GameState.stateString Fixtures.stateA)) 8).length = 8
      rw [jsSliceTo_length, sha256hex_length]
      decide
    rw [h8, sha256hex_length] at hlen
    exact absurd hlen (by norm_num)
  · exact GameState.findNodeByHash_self Fixtures.rootA

/-- Claim C1, amended: the ledger retains only the first 8 hex characters of
the SHA-256 digest as a node's identity (`generateStateHash` is the full
digest truncated by `slice(0, 8)`, so the stored hash has length 8 while the
full digest has length 64), and `findNodeByHash` resolves a node exactly when
the query string equals this stored truncated digest. -/
theorem claim1_theorem (state : GameState.ScenarioState) (n m : GameState.ScenarioStateNode)
    (hash : String) (hfind : GameState.findNodeByHash n hash = some m) :
    GameState.generateStateHash state = jsSliceTo (sha256hex (GameState.stateString state)) 8 ∧
    (GameState.generateStateHash state).length = 8 ∧
    (sha256hex (GameState.stateString state)).length = 64 ∧
    m.stateHash = hash := by
  refine ⟨rfl, ?_, sha256hex_length _, GameState.findNodeByHash_stateHash n hash m hfind⟩
  show (jsSliceTo (sha256hex (GameState.stateString state)) 8).length = 8
  rw [jsSliceTo_length, sha256hex_length]
  decide

/-- Witness for `claim1_theorem` at the concrete root `Fixtures.rootA`,
discharging the lookup hypothesis with a successful self-lookup. -/
theorem claim1_witness :
    GameState.generateStateHash Fixtures.stateA =
      jsSliceTo (sha256hex (GameState.stateString Fixtures.stateA)) 8 ∧
    (GameState.generateStateHash Fixtures.stateA).length = 8 ∧
    (sha256hex (GameState.stateString Fixtures.stateA)).length = 64 ∧
    Fixtures.rootA.stateHash = Fixtures.rootA.stateHash :=
  claim1_theorem Fixtures.stateA Fixtures.rootA Fixtures.rootA Fixtures.rootA.stateHash
    (GameState.findNodeByHash_self Fixtures.rootA)

/-- Claim C2 (evaluation of the code at the failing input): after committing
the concrete child `Fixtures.childB` under `Fixtures.rootA` via
`createScenarioStateChildNode`, `findNodeByHash` from the root resolves the
committed child for **no** query hash — in particular not for
`childB.stateHash` — because the commit sets only the child's `parent`
reference and never appends the child to `parent.children` (which stays
empty), contradicting "every hash of a previously committed node remains
resolvable". -/
theorem claim2_theorem : ∀ hash : String,
    GameState.findNodeByHash Fixtures.rootA hash ≠ some Fixtures.childB := by
  intro hash h
  have hform : GameState.findNodeByHash Fixtures.rootA hash =
      if GameState.generateStateHash Fixtures.stateA = hash then some Fixtures.rootA
      else none := by
    show GameState.findNodeByHash
      (.mk Fixtures.stateA (GameState.generateStateHash Fixtures.stateA) [] none) hash =
      if GameState.generateStateHash Fixtures.stateA = hash then some Fixtures.rootA else none
    rw [GameState.findNodeByHash, GameState.findReduce]
    rfl
  rw [hform] at h
  by_cases hq : GameState.generateStateHash Fixtures.stateA = hash
  · rw [if_pos hq] at h
    have h2 : Fixtures.rootA = Fixtures.childB := Option.some.inj h
    simp [Fixtures.rootA, Fixtures.childB, GameState.createScenarioStateRoot,
      GameState.createScenarioStateChildNode] at h2
  · rw [if_neg hq] at h
    exact Option.noConfusion h

/-- Claim C3 (evaluation of the code at the failing input): both
`processActions` implementations copy the **parent** snapshot's private
ledger into the new snapshot for every oracle result (the merge response is
never consulted for it); at the concrete inputs the merge oracle returns the
private ledger `privB`, which differs from the parent's `privA`, yet the
committed snapshot carries `privA`. -/
theorem claim3_theorem :
    (∀ (g : Persistent.Game) (msgs : List ChatMsg),
      (g.processActions msgs).1.currentState.privateInfo = g.currentState.privateInfo) ∧
    (∀ (cur : GameState.ScenarioStateNode) (pending : List UserInteraction)
        (msgs : List ChatMsg),
      (GameState.processActions cur pending msgs).1.state.privateInfo =
        cur.state.privateInfo) ∧
    ((GameState.processActions Fixtures.rootA [Fixtures.iAct1]
        [⟨"assistant", "round two result"⟩]).1.state.privateInfo = Fixtures.privA ∧
      (Fixtures.mergeOk "anything").toOption.map ScenarioUpdate.privateInfo =
        some Fixtures.privB ∧
      Fixtures.privA ≠ Fixtures.privB) := by
  refine ⟨fun g msgs => rfl, fun cur pending msgs => ?_, rfl, rfl, by decide⟩
  cases cur with
  | mk st hh cs p => rfl

/-- Claim C10: `Game.removeUserInteraction i` returns a fresh `Game` whose
queue is the original queue with exactly the element at position `i` removed
when `i` is in range, and the unchanged queue when `i` is past the end; the
result's `currentState` is unchanged and (for any well-formed receiver) its
`scenarioStates` map is unchanged. The receiver itself cannot be mutated in
this pure embedding, matching the source's immutable-update contract. -/
theorem claim10_theorem (g : Persistent.Game) (i : Nat) (hwf : g.WF) :
    (g.removeUserInteraction i).userInteractions = g.userInteractions.eraseIdx i ∧
    (i < g.userInteractions.length →
      (g.removeUserInteraction i).userInteractions.length + 1 = g.userInteractions.length) ∧
    (∀ j, j < i →
      ((g.removeUserInteraction i).userInteractions)[j]? = g.userInteractions[j]?) ∧
    (∀ j, i ≤ j →
      ((g.removeUserInteraction i).userInteractions)[j]? = g.userInteractions[j + 1]?) ∧
    (g.userInteractions.length ≤ i →
      (g.removeUserInteraction i).userInteractions = g.userInteractions) ∧
    (g.removeUserInteraction i).currentState = g.currentState ∧
    (g.removeUserInteraction i).scenarioStates = g.scenarioStates := by
  refine ⟨rfl, ?_, ?_, ?_, ?_, rfl, ?_⟩
  · intro hi
    show (g.userInteractions.eraseIdx i).length + 1 = g.userInteractions.length
    rw [List.length_eraseIdx, if_pos hi]
    omega
  · intro j hj
    show (g.userInteractions.eraseIdx i)[j]? = g.userInteractions[j]?
    rw [List.getElem?_eraseIdx, if_pos hj]
  · intro j hj
    show (g.userInteractions.eraseIdx i)[j]? = g.userInteractions[j + 1]?
    rw [List.getElem?_eraseIdx, if_neg (by omega)]
  · intro hi
    show g.userInteractions.eraseIdx i = g.userInteractions
    exact List.eraseIdx_of_length_le hi
  · funext k
    show (if k = g.currentState.hash then some g.currentState else g.scenarioStates k) =
      g.scenarioStates k
    by_cases hk : k = g.currentState.hash
    · rw [if_pos hk, hk, hwf]
    · rw [if_neg hk]

/-- Witness for `claim10_theorem` at a concrete two-element queue and
index 0, discharging well-formedness of the constructed game. -/
theorem claim10_witness :
    (Fixtures.gameA.removeUserInteraction 0).userInteractions =
      Fixtures.gameA.userInteractions.eraseIdx 0 ∧
    (0 < Fixtures.gameA.userInteractions.length →
      (Fixtures.gameA.removeUserInteraction 0).userInteractions.length + 1 =
        Fixtures.gameA.userInteractions.length) ∧
    (∀ j, j < 0 →
      ((Fixtures.gameA.removeUserInteraction 0).userInteractions)[j]? =
        Fixtures.gameA.userInteractions[j]?) ∧
    (∀ j, 0 ≤ j →
      ((Fixtures.gameA.removeUserInteraction 0).userInteractions)[j]? =
        Fixtures.gameA.userInteractions[j + 1]?) ∧
    (Fixtures.gameA.userInteractions.length ≤ 0 →
      (Fixtures.gameA.removeUserInteraction 0).userInteractions =
        Fixtures.gameA.userInteractions) ∧
    (Fixtures.gameA.removeUserInteraction 0).currentState = Fixtures.gameA.currentState ∧
    (Fixtures.gameA.removeUserInteraction 0).scenarioStates = Fixtures.gameA.scenarioStates :=
  claim10_theorem Fixtures.gameA 0 (by
    show (if Fixtures.gameA.currentState.hash = Fixtures.gameA.currentState.hash
        then some Fixtures.gameA.currentState else none) = some Fixtures.gameA.currentState
    rw [if_pos rfl])

/-- Claim C5: the `/process` handler is atomic at the session boundary — a
thrown `processActions` leaves the current ledger position and the pending
queue untouched, and the queue ends up cleared only when the call succeeded,
in which case the returned node has been installed as current first. -/
theorem claim5_theorem (gs : GrimBot.ActiveGrimState)
    (res : Except String (GameState.ScenarioStateNode × String)) :
    (∀ e, res = .error e → GrimBot.processCommand gs res = gs) ∧
    (gs.pendingUserInteractions ≠ [] →
      ∀ st r, res = .ok (st, r) →
        (GrimBot.processCommand gs res).currentState = st ∧
        (GrimBot.processCommand gs res).pendingUserInteractions = []) ∧
    ((GrimBot.processCommand gs res).pendingUserInteractions = [] →
      gs.pendingUserInteractions ≠ [] →
      ∃ st r, res = .ok (st, r) ∧ (GrimBot.processCommand gs res).currentState = st) := by
  have hlen : (gs.pendingUserInteractions.length = 0) ↔ gs.pendingUserInteractions = [] :=
    List.length_eq_zero
  refine ⟨?_, ?_, ?_⟩
  · intro e he
    subst he
    unfold GrimBot.processCommand
    split
    · rfl
    · rfl
  · intro hne st r hok
    subst hok
    unfold GrimBot.processCommand
    rw [if_neg (fun hz => hne (hlen.mp hz))]
    exact ⟨rfl, rfl⟩
  · intro hcleared hne
    unfold GrimBot.processCommand at hcleared
    rw [if_neg (fun hz => hne (hlen.mp hz))] at hcleared
    match hres : res with
    | .error e =>
      exact absurd hcleared hne
    | .ok (st, r) =>
      refine ⟨st, r, rfl, ?_⟩
      unfold GrimBot.processCommand
      rw [if_neg (fun hz => hne (hlen.mp hz))]

/-- Witness for `claim5_theorem` at a concrete session with a one-element
queue: a thrown run leaves the session untouched; a successful run installs
the produced node and clears the queue. -/
theorem claim5_witness :
    GrimBot.processCommand Fixtures.grimSession (.error "oracle transport failure") =
      Fixtures.grimSession ∧
    (GrimBot.processCommand Fixtures.grimSession
        (.ok (Fixtures.childB, "narrative"))).currentState = Fixtures.childB ∧
    (GrimBot.processCommand Fixtures.grimSession
        (.ok (Fixtures.childB, "narrative"))).pendingUserInteractions = [] := by
  have hne : Fixtures.grimSession.pendingUserInteractions ≠ [] := by
    intro h
    exact List.noConfusion h
  refine ⟨?_, ?_, ?_⟩
  · exact (claim5_theorem Fixtures.grimSession (.error "oracle transport failure")).1
      "oracle transport failure" rfl
  · exact ((claim5_theorem Fixtures.grimSession
      (.ok (Fixtures.childB, "narrative"))).2.1 hne Fixtures.childB "narrative" rfl).1
  · exact ((claim5_theorem Fixtures.grimSession
      (.ok (Fixtures.childB, "narrative"))).2.1 hne Fixtures.childB "narrative" rfl).2

theorem sampleLoop_mem (rand : ℚ) :
    ∀ (pairs : List (Outcome × ℚ)) (c : ℚ) (s : String),
      sampleLoop rand pairs c = some s → ∃ p ∈ pairs, s = p.1.outcome := by
  intro pairs
  induction pairs with
  | nil =>
    intro c s h
    simp [sampleLoop] at h
  | cons hd tl ih =>
    intro c s h
    obtain ⟨o, w⟩ := hd
    rw [sampleLoop] at h
    by_cases hc : rand ≤ c + w
    · rw [if_pos hc] at h
      cases h
      exact ⟨(o, w), List.mem_cons_self _ _, rfl⟩
    · rw [if_neg hc] at h
      obtain ⟨p, hp, hs⟩ := ih _ _ h
      exact ⟨p, List.mem_cons_of_mem _ hp, hs⟩

/-- For any draw, sampling a non-empty outcome list yields the label of one
of its members: either the cumulative loop fires, or the final fallback
returns the last outcome. -/
theorem sample_mem_of_ne_nil (rand : ℚ) (outcomes : List Outcome) (hne : outcomes ≠ []) :
    ∃ o ∈ outcomes, sampleFromWeightedOutcomes rand outcomes = .ok o.outcome := by
  simp only [sampleFromWeightedOutcomes]
  cases hl : sampleLoop rand
      (outcomes.zip (outcomes.map fun o => o.weight /
        outcomes.foldl (fun sum o => sum + o.weight) 0)) 0 with
  | some s =>
    obtain ⟨p, hp, hs⟩ := sampleLoop_mem rand _ _ _ hl
    exact ⟨p.1, (List.of_mem_zip hp).1, by rw [hs]⟩
  | none =>
    obtain ⟨o, ho⟩ := Option.isSome_iff_exists.mp (List.getLast?_isSome.mpr hne)
    rw [ho]
    obtain ⟨ys, hys⟩ := List.getLast?_eq_some_iff.mp ho
    exact ⟨o, by rw [hys]; simp, rfl⟩

/-- Claim C7: for a non-empty outcome list with all-positive weights and any
draw in `[0,1)`, `sampleFromWeightedOutcomes` returns the label of one of the
provided outcomes (it never throws and never falls through without a result),
and for a single-outcome list it returns that outcome for **every** draw. -/
theorem claim7_theorem (rand : ℚ) (outcomes : List Outcome)
    (h0 : 0 ≤ rand) (h1 : rand < 1) (hne : outcomes ≠ [])
    (hpos : ∀ o ∈ outcomes, 0 < o.weight) :
    (∃ o ∈ outcomes, sampleFromWeightedOutcomes rand outcomes = .ok o.outcome) ∧
    (∀ (r : ℚ) (o : Outcome), sampleFromWeightedOutcomes r [o] = .ok o.outcome) := by
  constructor
  · exact sample_mem_of_ne_nil rand outcomes hne
  · intro r o
    simp only [sampleFromWeightedOutcomes, List.map_cons, List.map_nil, List.zip_cons_cons,
      List.zip_nil_right, sampleLoop]
    by_cases hc : r ≤ 0 + o.weight / List.foldl (fun sum o => sum + o.weight) 0 [o]
    · rw [if_pos hc]
    · rw [if_neg hc]
      rfl

/-- Witness for `claim7_theorem` at the spec §8 scenario outcomes with the
draw `1/2`. -/
theorem claim7_witness :
    (∃ o ∈ [Outcome.mk "succeeds quietly" (7/10), Outcome.mk "triggers alarm" (3/10)],
      sampleFromWeightedOutcomes (1/2)
        [Outcome.mk "succeeds quietly" (7/10), Outcome.mk "triggers alarm" (3/10)] =
        .ok o.outcome) ∧
    (∀ (r : ℚ) (o : Outcome), sampleFromWeightedOutcomes r [o] = .ok o.outcome) :=
  claim7_theorem (1/2)
    [Outcome.mk "succeeds quietly" (7/10), Outcome.mk "triggers alarm" (3/10)]
    (by norm_num) (by norm_num) (by simp)
    (by
      intro o ho
      fin_cases ho <;> norm_num)

/-- Claim C8: on the empty outcome list the sampler fails with the distinct
`TypeError` raised at `outcomes[outcomes.length - 1].outcome`, and never
returns a label. -/
theorem claim8_theorem : ∀ rand : ℚ,
    sampleFromWeightedOutcomes rand [] =
      .error "TypeError: cannot read properties of undefined" ∧
    ∀ s, sampleFromWeightedOutcomes rand [] ≠ .ok s := by
  intro rand
  have he : sampleFromWeightedOutcomes rand [] =
      .error "TypeError: cannot read properties of undefined" := rfl
  refine ⟨he, fun s h => ?_⟩
  rw [he] at h
  exact Except.noConfusion h

theorem findIdx?_lt {α : Type _} (p : α → Bool) :
    ∀ (l : List α) (i j : Nat), List.findIdx? p l i = some j → j < i + l.length := by
  intro l
  induction l with
  | nil =>
    intro i j h
    simp [List.findIdx?] at h
  | cons x xs ih =>
    intro i j h
    rw [List.findIdx?_cons] at h
    by_cases hp : p x
    · rw [if_pos hp] at h
      cases h
      simp
    · rw [if_neg hp] at h
      have := ih (i + 1) j h
      simp only [List.length_cons]
      omega

theorem jsLastIndexOf_lt (l : List Char) (c : Char) (i : Nat)
    (h : jsLastIndexOf l c = some i) : i < l.length := by
  unfold jsLastIndexOf at h
  cases hf : List.findIdx? (fun x => x = c) l.reverse 0 with
  | none => rw [hf] at h; exact Option.noConfusion h
  | some j =>
    rw [hf] at h
    have hj := findIdx?_lt _ _ _ _ hf
    rw [List.length_reverse] at hj
    cases h
    omega

theorem findLastNewlineBeforeLimit_le (text : List Char) (limit : Nat) :
    findLastNewlineBeforeLimit text limit ≤ min limit text.length := by
  simp only [findLastNewlineBeforeLimit]
  cases hj : jsLastIndexOf (text.take (min limit text.length)) '\n' with
  | none => exact le_refl _
  | some i =>
    have := jsLastIndexOf_lt _ _ _ hj
    rw [List.length_take] at this
    have hle : min (min limit text.length) text.length ≤ min limit text.length :=
      Nat.min_le_left _ _
    show i ≤ min limit text.length
    omega

theorem chunkText_chunk_le (maxLength : Nat) :
    ∀ (n : Nat) (text : List Char), text.length ≤ n →
      ∀ chunk ∈ chunkText text maxLength, chunk.length ≤ maxLength := by
  intro n
  induction n with
  | zero =>
    intro text hlen chunk hc
    have hz : text.length ≤ maxLength := by omega
    rw [chunkText, if_pos hz] at hc
    have : chunk = text := by simpa using hc
    rw [this]
    exact hz
  | succ k ih =>
    intro text hlen chunk hc
    by_cases hb : text.length ≤ maxLength
    · rw [chunkText, if_pos hb] at hc
      have : chunk = text := by simpa using hc
      rw [this]
      exact hb
    · rw [chunkText, if_neg hb] at hc
      rcases List.mem_cons.mp hc with heq | hmem
      · rw [heq, List.length_take]
        have hsplit := findLastNewlineBeforeLimit_le text maxLength
        have h1 : min maxLength text.length ≤ maxLength := Nat.min_le_left _ _
        omega
      · refine ih (text.drop (findLastNewlineBeforeLimit text maxLength + 1)) ?_ chunk hmem
        rw [List.length_drop]
        omega

/-- Claim C9: `chunkText` terminates — it is total in this embedding, and
each recursive call's remainder is strictly shorter than its input — and
every chunk it returns has length at most `maxLength`. -/
theorem claim9_theorem (text : List Char) (maxLength : Nat) (h : 0 < maxLength) :
    (∀ chunk ∈ chunkText text maxLength, chunk.length ≤ maxLength) ∧
    (maxLength < text.length →
      (text.drop (findLastNewlineBeforeLimit text maxLength + 1)).length < text.length) := by
  constructor
  · exact chunkText_chunk_le maxLength text.length text le_rfl
  · intro hlt
    rw [List.length_drop]
    omega

/-- Witness for `claim9_theorem` on a concrete 25-character text with
`maxLength = 7`. -/
theorem claim9_witness :
    (∀ chunk ∈ chunkText ("hello\nworld, here more".data) 7, chunk.length ≤ 7) ∧
    (7 < ("hello\nworld, here more".data).length →
      (("hello\nworld, here more".data).drop
        (findLastNewlineBeforeLimit ("hello\nworld, here more".data) 7 + 1)).length <
        ("hello\nworld, here more".data).length) :=
  claim9_theorem ("hello\nworld, here more".data) 7 (by decide)

theorem promiseAll_ok {ε α : Type _} : ∀ (l : List (Except ε α)),
    (∀ x ∈ l, ∃ v, x = .ok v) → promiseAll l = .ok (l.filterMap Except.toOption) := by
  intro l
  induction l with
  | nil => intro _; rfl
  | cons x xs ih =>
    intro h
    obtain ⟨v, rfl⟩ := h x (List.mem_cons_self _ _)
    rw [promiseAll, ih (fun y hy => h y (List.mem_cons_of_mem _ hy))]
    simp [List.filterMap_cons, Except.toOption]

/-- When no fan-out task rejects, the merge-input string is exactly: feed
lines (in original relative order) followed by the non-rejecting tasks'
resolution values (in original non-FEED submission order), joined by blank
lines. -/
theorem buildMergeInput_ok
    (resolver : UserInteraction → ForecastResult → ℚ → Except String (Option String))
    (actions : List UserInteraction) (oracle : Nat → ForecastResult) (rands : Nat → ℚ)
    (hok : ∀ x ∈ ((partitionInteractions (fun a => a.type = .FEED) actions).2.mapIdx
        (fun i action => resolver action (oracle i) (rands i))), ∃ v, x = Except.ok v) :
    buildMergeInput resolver actions oracle rands = .ok (String.intercalate "\n\n"
      ((partitionInteractions (fun a => a.type = .FEED) actions).1.map feedLine ++
        ((partitionInteractions (fun a => a.type = .FEED) actions).2.mapIdx
          (fun i action => resolver action (oracle i) (rands i))).filterMap
            (fun r => r.toOption.bind id))) := by
  simp only [buildMergeInput]
  rw [promiseAll_ok _ hok]
  simp only [List.filterMap_filterMap]

theorem mem_mapIdx_tasks
    (resolver : UserInteraction → ForecastResult → ℚ → Except String (Option String))
    (l : List UserInteraction) (oracle : Nat → ForecastResult) (rands : Nat → ℚ)
    (x : Except String (Option String))
    (hx : x ∈ l.mapIdx (fun i action => resolver action (oracle i) (rands i))) :
    ∃ i action, x = resolver action (oracle i) (rands i) := by
  rw [List.mapIdx_eq_enum_map] at hx
  obtain ⟨⟨i, a⟩, _, rfl⟩ := List.mem_map.mp hx
  exact ⟨i, a, rfl⟩

/-- Claim C4 (counterexample to the claim as stated): in the `src/openai.ts`
pipeline (the path embedded in the workspace `src/grim.ts`), a batch of two
resolvable ACTIONs where exactly the first forecast response carries
malformed tool-call arguments makes `processActions` fail **as a whole**:
the `JSON.parse` exception rejects that task's promise and `Promise.all`
propagates it, so no merge runs — contradicting "that action is dropped
... and processActions does not fail as a whole". -/
theorem claim4_counterexample :
    chatProcessActionsGrim [Fixtures.iAct1, Fixtures.iAct2] Fixtures.oracleOneMalformed
      Fixtures.randsZero Fixtures.mergeOk = .error "SyntaxError: JSON.parse" ∧
    (partitionInteractions (fun a => a.type = .FEED)
      [Fixtures.iAct1, Fixtures.iAct2]).2.length = 2 ∧
    Fixtures.oracleOneMalformed 0 = .malformedArgs ∧
    Fixtures.oracleOneMalformed 1 ≠ .malformedArgs := by
  refine ⟨rfl, rfl, rfl, ?_⟩
  intro h
  simp [Fixtures.oracleOneMalformed] at h

/-- Claim C4, amended: in the `src/telegram-bot/chat-service.ts` path, any
forecast task whose response is missing its tool call, has malformed
arguments, or lacks an `outcomes` field is dropped and the batch still
proceeds to the merge step (whose output is committed into the returned
message array); in the `src/grim.ts` (`src/openai.ts`) path this partial
failure tolerance holds only for a **missing** tool call — malformed
arguments or a missing outcomes field reject the whole round. -/
theorem claim4_theorem (actions : List UserInteraction) (oracle : Nat → ForecastResult)
    (rands : Nat → ℚ)
    (hres : ∀ i outs, oracle i = .outcomes outs → outs ≠ []) :
    (∃ s, buildMergeInputTelegram actions oracle rands = .ok s ∧
      ∀ (canon : List ChatMsg) (mergeOracle : String → Except String String) (nr : String),
        mergeOracle s = .ok nr →
        chatProcessActionsTelegram actions oracle rands canon mergeOracle =
          .ok (canon ++ [⟨"user", s⟩, ⟨"assistant", nr⟩])) ∧
    ((∀ i, oracle i ≠ .malformedArgs ∧ oracle i ≠ .missingOutcomes) →
      ∃ s, buildMergeInputGrim actions oracle rands = .ok s) := by
  constructor
  · have htasks : ∀ x ∈ ((partitionInteractions (fun a => a.type = .FEED) actions).2.mapIdx
        (fun i action => resolveForecastTelegram action (oracle i) (rands i))),
        ∃ v, x = Except.ok v := by
      intro x hx
      obtain ⟨i, a, rfl⟩ := mem_mapIdx_tasks resolveForecastTelegram _ oracle rands x hx
      cases holc : oracle i with
      | noToolCall => exact ⟨none, rfl⟩
      | malformedArgs => exact ⟨none, rfl⟩
      | missingOutcomes => exact ⟨none, rfl⟩
      | outcomes outs =>
        obtain ⟨o, _, hs⟩ := sample_mem_of_ne_nil (rands i) outs (hres i outs holc)
        exact ⟨some (resolutionLine a o.outcome), by
          simp only [resolveForecastTelegram, hs]⟩
    have hTel := buildMergeInput_ok resolveForecastTelegram actions oracle rands htasks
    refine ⟨_, hTel, ?_⟩
    intro canon mergeOracle nr hmerge
    simp only [chatProcessActionsTelegram, buildMergeInputTelegram, hTel, hmerge]
  · intro hnomal
    refine ⟨_, buildMergeInput_ok resolveForecastGrim actions oracle rands ?_⟩
    intro x hx
    obtain ⟨i, a, rfl⟩ := mem_mapIdx_tasks resolveForecastGrim _ oracle rands x hx
    cases holc : oracle i with
    | noToolCall => exact ⟨none, rfl⟩
    | malformedArgs => exact absurd holc (hnomal i).1
    | missingOutcomes => exact absurd holc (hnomal i).2
    | outcomes outs =>
      obtain ⟨o, _, hs⟩ := sample_mem_of_ne_nil (rands i) outs (hres i outs holc)
      exact ⟨some (resolutionLine a o.outcome), by
        simp only [resolveForecastGrim, hs]⟩

/-- Witness for `claim4_theorem`: a two-ACTION batch whose first forecast is
missing its tool call; both paths drop it and proceed. -/
theorem claim4_witness :
    (∃ s, buildMergeInputTelegram [Fixtures.iAct1, Fixtures.iAct2] Fixtures.oracleOneMissing
        Fixtures.randsZero = .ok s ∧
      ∀ (canon : List ChatMsg) (mergeOracle : String → Except String String) (nr : String),
        mergeOracle s = .ok nr →
        chatProcessActionsTelegram [Fixtures.iAct1, Fixtures.iAct2] Fixtures.oracleOneMissing
          Fixtures.randsZero canon mergeOracle =
          .ok (canon ++ [⟨"user", s⟩, ⟨"assistant", nr⟩])) ∧
    ((∀ i, Fixtures.oracleOneMissing i ≠ .malformedArgs ∧
        Fixtures.oracleOneMissing i ≠ .missingOutcomes) →
      ∃ s, buildMergeInputGrim [Fixtures.iAct1, Fixtures.iAct2] Fixtures.oracleOneMissing
        Fixtures.randsZero = .ok s) :=
  claim4_theorem [Fixtures.iAct1, Fixtures.iAct2] Fixtures.oracleOneMissing Fixtures.randsZero
    (by
      intro i outs h
      simp only [Fixtures.oracleOneMissing] at h
      by_cases hi : i = 0
      · rw [if_pos hi] at h
        exact ForecastResult.noConfusion h
      · rw [if_neg hi] at h
        injection h with h2
        rw [← h2]
        simp)

theorem sample_zero_singleton (s : String) :
    sampleFromWeightedOutcomes 0 [⟨s, 1⟩] = .ok s := by
  simp only [sampleFromWeightedOutcomes, List.map_cons, List.map_nil, List.zip_cons_cons,
    List.zip_nil_right, List.foldl_cons, List.foldl_nil, sampleLoop]
  rw [if_pos (by norm_num)]

theorem resolveForecastGrim_singleton (a : UserInteraction) (s : String) :
    resolveForecastGrim a (.outcomes [⟨s, 1⟩]) 0 = .ok (some (resolutionLine a s)) := by
  simp only [resolveForecastGrim, sample_zero_singleton]

theorem resolveForecastTelegram_singleton (a : UserInteraction) (s : String) :
    resolveForecastTelegram a (.outcomes [⟨s, 1⟩]) 0 = .ok (some (resolutionLine a s)) := by
  simp only [resolveForecastTelegram, sample_zero_singleton]

/-- Claim C6: whenever every fan-out task yields a result (no rejection), the
merge-input text (`allOutcomesStr`) consists of the FEED lines — in their
original relative submission order, since the partition filters in order —
followed by the resolution lines of the non-FEED interactions in their
original relative submission order (one optional line per task, in task
order). The `Promise.all` model joins results in task order regardless of
completion timing, which is the JavaScript `Promise.all` ordering guarantee.
Both `ChatService.processActions` variants are covered. -/
theorem claim6_theorem (actions : List UserInteraction) (oracle : Nat → ForecastResult)
    (rands : Nat → ℚ)
    (hokG : ∀ x ∈ ((partitionInteractions (fun a => a.type = .FEED) actions).2.mapIdx
        (fun i action => resolveForecastGrim action (oracle i) (rands i))),
        ∃ v, x = Except.ok v)
    (hokT : ∀ x ∈ ((partitionInteractions (fun a => a.type = .FEED) actions).2.mapIdx
        (fun i action => resolveForecastTelegram action (oracle i) (rands i))),
        ∃ v, x = Except.ok v) :
    buildMergeInputGrim actions oracle rands = .ok (String.intercalate "\n\n"
      ((partitionInteractions (fun a => a.type = .FEED) actions).1.map feedLine ++
        ((partitionInteractions (fun a => a.type = .FEED) actions).2.mapIdx
          (fun i action => resolveForecastGrim action (oracle i) (rands i))).filterMap
            (fun r => r.toOption.bind id))) ∧
    buildMergeInputTelegram actions oracle rands = .ok (String.intercalate "\n\n"
      ((partitionInteractions (fun a => a.type = .FEED) actions).1.map feedLine ++
        ((partitionInteractions (fun a => a.type = .FEED) actions).2.mapIdx
          (fun i action => resolveForecastTelegram action (oracle i) (rands i))).filterMap
            (fun r => r.toOption.bind id))) :=
  ⟨buildMergeInput_ok resolveForecastGrim actions oracle rands hokG,
   buildMergeInput_ok resolveForecastTelegram actions oracle rands hokT⟩

/-- Witness for `claim6_theorem` at the spec's example batch
`[FEED f1, ACTION a1, INFO i1, ACTION a2]`: the merge-input text lists `f1`
first, then the resolution lines for `a1`, `i1`, `a2` in that order. -/
theorem claim6_witness :
    buildMergeInputGrim Fixtures.batch6 Fixtures.oracleGood Fixtures.randsZero =
      .ok ("FEED: the base is empty\n\nACTION Alice: storm the base, 2 hours, stealth approach\nOutcome: laid low\n\nINFO Carol: what is known?\nOutcome: files found\n\nACTION Bob: call the press\nOutcome: press arrives") := by
  have hpart : partitionInteractions (fun a => a.type = .FEED) Fixtures.batch6 =
      ([Fixtures.iFeed1], [Fixtures.iAct1, Fixtures.iInfo1, Fixtures.iAct2]) := by
    decide
  have htasksG : (partitionInteractions (fun a => a.type = .FEED) Fixtures.batch6).2.mapIdx
      (fun i action => resolveForecastGrim action (Fixtures.oracleGood i)
        (Fixtures.randsZero i)) =
      [.ok (some (resolutionLine Fixtures.iAct1 "laid low")),
       .ok (some (resolutionLine Fixtures.iInfo1 "files found")),
       .ok (some (resolutionLine Fixtures.iAct2 "press arrives"))] := by
    rw [hpart]
    simp [List.mapIdx_cons, List.mapIdx_nil, Fixtures.oracleGood, Fixtures.randsZero,
      resolveForecastGrim_singleton]
  have htasksT : (partitionInteractions (fun a => a.type = .FEED) Fixtures.batch6).2.mapIdx
      (fun i action => resolveForecastTelegram action (Fixtures.oracleGood i)
        (Fixtures.randsZero i)) =
      [.ok (some (resolutionLine Fixtures.iAct1 "laid low")),
       .ok (some (resolutionLine Fixtures.iInfo1 "files found")),
       .ok (some (resolutionLine Fixtures.iAct2 "press arrives"))] := by
    rw [hpart]
    simp [List.mapIdx_cons, List.mapIdx_nil, Fixtures.oracleGood, Fixtures.randsZero,
      resolveForecastTelegram_singleton]
  have h6 := claim6_theorem Fixtures.batch6 Fixtures.oracleGood Fixtures.randsZero
    (by
      rw [htasksG]
      intro x hx
      fin_cases hx <;> exact ⟨_, rfl⟩)
    (by
      rw [htasksT]
      intro x hx
      fin_cases hx <;> exact ⟨_, rfl⟩)
  rw [h6.1, htasksG, hpart]
  rfl

end Grim

